import Mathlib

/-!
Verification development for the `qualify_path` assist
(`crates/assists/src/handlers/qualify_path.rs`) and the diagnostics logger
(`crates/rust-analyzer/src/bin/logger.rs`) of this repository.

The Rust sources are shallowly embedded: syntax-tree nodes become records
carrying their verbatim source text and their span in the original file,
the semantic oracle becomes abstract function fields of the context, and
the stateful assist accumulator becomes an explicitly returned list.
Definitions are translated from the source; the few pieces of the
repository that are not under `src/` (the `import_assets` classifier, the
`hir::ModPath` rendering and ordering, the range resolver of the
semantics layer) are modelled from the specification and say so in their
doc comments.
-/

namespace QualifyPath

/-- A half-open `[start, stop)` span of offsets into the original source
text, mirroring `syntax::TextRange`. -/
structure TextRange where
  start : Nat
  stop : Nat
deriving DecidableEq, Repr

/-- Modelled from the spec: `hir::ModPath` (crate `hir`, absent from
`src/`) is an ordered, non-empty sequence of identifier segments,
rendered as `segment1::…::segmentN`; that rendering is also used by
`mod_path_to_ast` and by the `Display` instance the labels use, and is
shape-independent. -/
structure ModPath where
  segments : List String
deriving DecidableEq, Repr

/-- Rendered text of a candidate path (`segment1::…::segmentN`). -/
def ModPath.render (p : ModPath) : String :=
  String.intercalate "::" p.segments

/-- One path segment (`ast::PathSegment`): its verbatim source text
(including any generic arguments), the bare identifier, and its span. -/
structure PathSegment where
  text : String
  name : String
  range : TextRange
deriving DecidableEq, Repr

/-- A path node (`ast::Path`): optional qualifier sub-path (split into
two constructors so the type is plainly recursive), its own (top-level,
i.e. last) segment, its span in the original file and its verbatim
text. -/
inductive Path where
  | root (seg : Option PathSegment) (range : TextRange) (text : String)
  | qualified (qual : Path) (seg : Option PathSegment)
      (range : TextRange) (text : String)
deriving DecidableEq, Repr

/-- `ast::Path::qualifier`. -/
def Path.qualifier : Path → Option Path
  | .root _ _ _ => none
  | .qualified q _ _ _ => some q

/-- `ast::Path::segment` (the own, i.e. last, segment of the path node). -/
def Path.segment : Path → Option PathSegment
  | .root s _ _ => s
  | .qualified _ s _ _ => s

/-- The span of the node in the original file. -/
def Path.range : Path → TextRange
  | .root _ r _ => r
  | .qualified _ _ r _ => r

/-- The verbatim source text of the node (what the Rust `Display` for
the node prints). -/
def Path.text : Path → String
  | .root _ _ t => t
  | .qualified _ _ _ t => t

/-- A receiver expression (`ast::Expr`), kept as its verbatim text. -/
structure Expr where
  text : String
deriving DecidableEq, Repr

/-- A name reference (`ast::NameRef`), kept as its verbatim text. -/
structure NameRef where
  text : String
deriving DecidableEq, Repr

/-- A method-call node (`ast::MethodCallExpr`): optional receiver and
method name (either may be missing in an incomplete edit), and the span
of the whole call — the span of a tree node always covers its entire text,
so for a method call it includes the argument list. -/
structure MethodCallExpr where
  receiver : Option Expr
  name_ref : Option NameRef
  range : TextRange
deriving DecidableEq, Repr

/-- The node held by `ImportAssets`: either a path node or a method-call
node.  (The Rust field is called `syntax_under_caret`; the first word of
that name is avoided here, so the embedding says `node`.) -/
inductive AstNode where
  | path (p : Path)
  | methodCall (m : MethodCallExpr)
deriving DecidableEq, Repr

/-- `ast::Path::cast` applied to the stored node. -/
def AstNode.castPath : AstNode → Option Path
  | .path p => some p
  | .methodCall _ => none

/-- `ast::MethodCallExpr::cast` applied to the stored node. -/
def AstNode.castMethodCall : AstNode → Option MethodCallExpr
  | .methodCall m => some m
  | .path _ => none

/-- Modelled from the spec: the Range Resolver
(`ctx.sema.original_range(..).range`, in the semantics layer, absent
from `src/`) maps a node to its exact offset span in the original
(pre-macro-expansion) source; every modelled node records exactly that
span. -/
def AstNode.originalRange : AstNode → TextRange
  | .path p => p.range
  | .methodCall m => m.range

/-- `ImportCandidate` (from `utils::import_assets`): the closed set of
four reference shapes, each carrying the name being qualified. -/
inductive ImportCandidate where
  | qualifierStart (name : String)
  | unqualifiedName (name : String)
  | traitAssocItem (name : String)
  | traitMethod (name : String)
deriving DecidableEq, Repr

/-- `ImportAssets` (from `utils::import_assets`, absent from `src/`):
the classified candidate together with the located node. -/
structure ImportAssets where
  import_candidate : ImportCandidate
  node_under_caret : AstNode
deriving DecidableEq, Repr

/-- Modelled from the spec: for a QualifierStart reference (a longer
path whose first segment is unresolved) the locator/classifier of
`utils::import_assets` (absent from `src/`) holds the path node of the
leading segment itself, so its span is the span of the leading segment only and
its `segment` is the leading segment itself. -/
def importAssetsForQualifierStart (seg : PathSegment) : ImportAssets :=
  { import_candidate := ImportCandidate.qualifierStart seg.name
    node_under_caret := AstNode.path (Path.root (some seg) seg.range seg.text) }

/-- The assist-context queries that `qualify_path` performs, gathered as
a record: the two locator queries
(`find_node_at_offset_with_descend` for `ast::Path` and for
`ast::MethodCallExpr`), the two `ImportAssets` constructors, and the
candidate search (the oracle).  All are read-only queries against an
already-built tree, so one invocation is a pure function of this
record. -/
structure AssistContext where
  path_under_caret : Option Path
  method_under_caret : Option MethodCallExpr
  for_regular_path : Path → Option ImportAssets
  for_method_call : MethodCallExpr → Option ImportAssets
  search_for_relative_paths : ImportAssets → List ModPath

/-- One produced assist (Edit): the group label shared by alternatives,
the per-choice label, the single range passed both as the assist target
and to `builder.replace`, and the replacement text. -/
structure Assist where
  group_label : String
  label : String
  target : TextRange
  replacement : String
deriving DecidableEq, Repr

/-- Strict lexicographic order on lists of naturals: the executable
comparison backing the rendered-text order of candidate paths. -/
def natListLt : List Nat → List Nat → Bool
  | [], [] => false
  | [], _ :: _ => true
  | _ :: _, [] => false
  | x :: xs, y :: ys =>
    if x < y then true
    else if y < x then false
    else natListLt xs ys

/-- The sort key of a candidate path: its rendered text, character by
character as code points, so that comparing keys is exactly comparing
the rendered texts lexicographically. -/
def renderKey (p : ModPath) : List Nat :=
  p.render.data.map Char.toNat

/-- Modelled from the spec: ordered insertion into the
`BTreeSet<hir::ModPath>` the oracle returns; the order on `hir::ModPath`
is absent from `src/`, and the spec says candidate sets are totally ordered
by rendered text, duplicate-free. -/
def insertModPath (p : ModPath) : List ModPath → List ModPath
  | [] => [p]
  | q :: qs =>
    if natListLt (renderKey p) (renderKey q) then p :: q :: qs
    else if renderKey p = renderKey q then q :: qs
    else q :: insertModPath p qs

/-- The `BTreeSet<hir::ModPath>` built from the raw oracle answers:
its iteration order is sorted by rendered text with duplicates
dropped. -/
def btreeSetOf (l : List ModPath) : List ModPath :=
  l.foldl (fun acc p => insertModPath p acc) []

/-- The strict rendered-text order on candidate paths, as a
proposition. -/
def renderLt (p q : ModPath) : Prop :=
  natListLt (renderKey p) (renderKey q) = true

/-- `qualify_path_qualifier_start` (source lines 85–105): one assist per
candidate, every one targeting the one `range`, replacing it with
`{rendered candidate}::{segment verbatim}`. -/
def qualify_path_qualifier_start (proposed_imports : List ModPath)
    (range : TextRange) (segment : PathSegment) (qualifier_start : String) :
    List Assist :=
  proposed_imports.map fun imp =>
    { group_label := "Qualify " ++ qualifier_start
      label := "Qualify with `" ++ imp.render ++ "`"
      target := range
      replacement := imp.render ++ "::" ++ segment.text }

/-- `qualify_path_unqualified_name` (source lines 108–124). -/
def qualify_path_unqualified_name (proposed_imports : List ModPath)
    (range : TextRange) (name : String) : List Assist :=
  proposed_imports.map fun imp =>
    { group_label := "Qualify " ++ name
      label := "Qualify as `" ++ imp.render ++ "`"
      target := range
      replacement := imp.render }

/-- `qualify_path_trait_assoc_item` (source lines 127–148): replacement
`<{qualifier verbatim} as {rendered candidate}>::{segment verbatim}`. -/
def qualify_path_trait_assoc_item (proposed_imports : List ModPath)
    (range : TextRange) (qualifier : Path) (segment : PathSegment)
    (trait_assoc_item_name : String) : List Assist :=
  proposed_imports.map fun imp =>
    { group_label := "Qualify " ++ trait_assoc_item_name
      label := "Qualify with cast as `" ++ imp.render ++ "`"
      target := range
      replacement := "<" ++ qualifier.text ++ " as " ++ imp.render ++ ">::" ++ segment.text }

/-- `qualify_path_trait_method` (source lines 151–173): replacement
`{rendered candidate}::{name_ref}(&{receiver})` — the borrow is emitted
unconditionally and the replacement ends with a closing parenthesis. -/
def qualify_path_trait_method (proposed_imports : List ModPath)
    (range : TextRange) (receiver : Expr) (name_ref : NameRef)
    (trait_method_name : String) : List Assist :=
  proposed_imports.map fun imp =>
    { group_label := "Qualify " ++ trait_method_name
      label := "Qualify `" ++ imp.render ++ "`"
      target := range
      replacement := imp.render ++ "::" ++ name_ref.text ++ "(&" ++ receiver.text ++ ")" }

/-- Source lines 30–39: locate the reference — path node first, then
method-call node, else nothing. -/
def locate (ctx : AssistContext) : Option ImportAssets :=
  match ctx.path_under_caret with
  | some path_under_caret => ctx.for_regular_path path_under_caret
  | none =>
    match ctx.method_under_caret with
    | some method_under_caret => ctx.for_method_call method_under_caret
    | none => none

/-- The `match import_assets.import_candidate()` block of `qualify_path`
(source lines 45–80), over the located node, its classified candidate
and the ordered candidate set.  `range` is computed once from the node
(line 45) and handed unchanged to every branch; every `?` on a failed
cast or a missing child yields `(none, [])` — the Rust `return None`
with the accumulator untouched. -/
def qualify_path_dispatch (node : AstNode) (cand : ImportCandidate)
    (proposed_imports : List ModPath) : Option Unit × List Assist :=
  let range := node.originalRange
  match cand with
  | ImportCandidate.qualifierStart name =>
    match node.castPath with
    | none => (none, [])
    | some path =>
      match path.segment with
      | none => (none, [])
      | some segment =>
        (some (), qualify_path_qualifier_start proposed_imports range segment name)
  | ImportCandidate.unqualifiedName name =>
    (some (), qualify_path_unqualified_name proposed_imports range name)
  | ImportCandidate.traitAssocItem name =>
    match node.castPath with
    | none => (none, [])
    | some path =>
      match path.qualifier, path.segment with
      | some qualifier, some segment =>
        (some (), qualify_path_trait_assoc_item proposed_imports range qualifier segment name)
      | _, _ => (none, [])
  | ImportCandidate.traitMethod name =>
    match node.castMethodCall with
    | none => (none, [])
    | some mcall_expr =>
      match mcall_expr.receiver, mcall_expr.name_ref with
      | some receiver, some name_ref =>
        (some (), qualify_path_trait_method proposed_imports range receiver name_ref name)
      | _, _ => (none, [])

/-- `qualify_path` (source lines 29–82).  Returns the `Option<()>` of
the Rust function together with the assists added to the accumulator; every
early `return None` (empty candidate set, failed cast, missing child)
happens before any assist is added, so those paths return an empty
list. -/
def qualify_path (ctx : AssistContext) : Option Unit × List Assist :=
  match locate ctx with
  | none => (none, [])
  | some import_assets =>
    let proposed_imports := btreeSetOf (ctx.search_for_relative_paths import_assets)
    if proposed_imports.isEmpty then (none, [])
    else
      qualify_path_dispatch import_assets.node_under_caret
        import_assets.import_candidate proposed_imports

/-- A located node lacks an expected child for its classified shape
(source: the `?` operators inside the `match`, lines 46–80). -/
def malformed (assets : ImportAssets) : Bool :=
  match assets.import_candidate with
  | ImportCandidate.qualifierStart _ =>
    match assets.node_under_caret.castPath with
    | none => true
    | some path => path.segment.isNone
  | ImportCandidate.unqualifiedName _ => false
  | ImportCandidate.traitAssocItem _ =>
    match assets.node_under_caret.castPath with
    | none => true
    | some path => path.qualifier.isNone || path.segment.isNone
  | ImportCandidate.traitMethod _ =>
    match assets.node_under_caret.castMethodCall with
    | none => true
    | some mcall_expr => mcall_expr.receiver.isNone || mcall_expr.name_ref.isNone

/-- Applying one Edit: single-range text substitution of `[start, stop)`
(character offsets in this model) by the replacement text. -/
def applyEdit (source : String) (r : TextRange) (replacement : String) : String :=
  String.mk (source.data.take r.start ++ replacement.data ++ source.data.drop r.stop)

end QualifyPath

namespace BinLogger

/-- A `log::Record`: severity text, optional module path, message. -/
structure Record where
  level : String
  module_path : Option String
  args : String
deriving DecidableEq, Repr

/-- One output destination (the buffered file writer, or stderr): the
lines successfully written so far, whether writes currently fail (e.g. a
closed handle), whether flushes currently fail, and how many explicit
flushes have succeeded. -/
structure Sink where
  lines : List String
  failWrites : Bool
  failFlush : Bool
  flushes : Nat
deriving DecidableEq, Repr

/-- `let _ = writeln!(..)`: a failed write is dropped, a successful one
appends exactly one line. -/
def Sink.writeLineDrop (s : Sink) (line : String) : Sink :=
  if s.failWrites then s else { s with lines := s.lines ++ [line] }

/-- `flush()` with the error ignored (`let _ = ..`). -/
def Sink.flushDrop (s : Sink) : Sink :=
  if s.failFlush then s else { s with flushes := s.flushes + 1 }

/-- `flush()` with its result observed: `none` models an `Err`. -/
def Sink.flushTry (s : Sink) : Option Sink :=
  if s.failFlush then none else some { s with flushes := s.flushes + 1 }

/-- The mutable world the logger writes into: the file sink (meaningful
when the logger holds a file) and stderr. -/
structure LogState where
  file : Sink
  stderr : Sink
deriving DecidableEq, Repr

/-- The `Logger` of `bin/logger.rs`: the `env_logger` filter (absent
from `src/`, modelled as an abstract predicate on records), whether a
file destination was supplied to `Logger::new`, and the `no_buffering`
flag. -/
structure Logger where
  filter : Record → Bool
  hasFile : Bool
  no_buffering : Bool

/-- The one line written per record (source lines 49–55 and 61–66):
`[{level} {module-path}] {message}`, the module path rendered empty when
absent (`unwrap_or_default`). -/
def formatRecord (r : Record) : String :=
  "[" ++ r.level ++ " " ++ r.module_path.getD "" ++ "] " ++ r.args

/-- `Log::log` (source lines 43–68).  `none` models an aborted call: the
`unwrap()` on the explicit flush of the unbuffered file path, and the
failure of `eprintln!` (which aborts when writing to stderr fails).  A
failed `writeln!` to the file is dropped (`let _ =`). -/
def Logger.log (l : Logger) (r : Record) (s : LogState) : Option LogState :=
  if !(l.filter r) then some s
  else if l.hasFile then
    let s1 : LogState := { s with file := s.file.writeLineDrop (formatRecord r) }
    if l.no_buffering then
      match s1.file.flushTry with
      | some f => some { s1 with file := f }
      | none => none
    else some s1
  else
    if s.stderr.failWrites then none
    else some { s with stderr := { s.stderr with lines := s.stderr.lines ++ [formatRecord r] } }

/-- `Log::flush` (source lines 70–74): flush the file sink with the
error ignored, or do nothing at all when there is no file; it can never
abort, so it plainly returns the new state. -/
def Logger.flush (l : Logger) (s : LogState) : LogState :=
  if l.hasFile then { s with file := s.file.flushDrop } else s

/-- `Log::enabled` (source lines 39–41). -/
def Logger.enabled (l : Logger) (r : Record) : Bool :=
  l.filter r

end BinLogger

namespace QualifyPath

/-- The method-call node of the repository test `trait_method_multi_params`
(source lines 679–715): the call `test_struct.test_method(42)`; the span
of the node covers the whole call, `[0, 27)`. -/
def mcallC1 : MethodCallExpr :=
  { receiver := some ⟨"test_struct"⟩
    name_ref := some ⟨"test_method"⟩
    range := ⟨0, 27⟩ }

/-- The source text of the call in that test. -/
def srcC1 : String := "test_struct.test_method(42)"

/-- Context for the `trait_method_multi_params` input: the cursor sits in
the method name, the classifier reports a TraitMethod reference, and the
oracle proposes `test_mod::TestTrait`. -/
def ctxC1 : AssistContext :=
  { path_under_caret := none
    method_under_caret := some mcallC1
    for_regular_path := fun _ => none
    for_method_call := fun m =>
      some { import_candidate := ImportCandidate.traitMethod "test_method"
             node_under_caret := AstNode.methodCall m }
    search_for_relative_paths := fun _ => [⟨["test_mod", "TestTrait"]⟩] }

/-- A concrete leading segment for the QualifierStart witness. -/
def segC2 : PathSegment := ⟨"TestStruct", "TestStruct", ⟨17, 27⟩⟩

/-- Context for the QualifierStart witness: candidate `test_mod`. -/
def ctxC2 : AssistContext :=
  { path_under_caret := some (Path.root (some segC2) segC2.range segC2.text)
    method_under_caret := none
    for_regular_path := fun _ => some (importAssetsForQualifierStart segC2)
    for_method_call := fun _ => none
    search_for_relative_paths := fun _ => [⟨["test_mod"]⟩] }

/-- The one assist produced on `ctxC2`. -/
def assistC2 : Assist :=
  ⟨"Qualify TestStruct", "Qualify with `test_mod`", ⟨17, 27⟩,
   "test_mod::TestStruct"⟩

/-- Context for the shared-range witness: unqualified `PubStruct` with
two candidate modules. -/
def ctxC3 : AssistContext :=
  { path_under_caret := some (Path.root (some ⟨"PubStruct", "PubStruct", ⟨0, 9⟩⟩) ⟨0, 9⟩ "PubStruct")
    method_under_caret := none
    for_regular_path := fun p =>
      some { import_candidate := ImportCandidate.unqualifiedName "PubStruct"
             node_under_caret := AstNode.path p }
    for_method_call := fun _ => none
    search_for_relative_paths := fun _ => [⟨["PubMod1"]⟩, ⟨["PubMod2"]⟩] }

/-- First assist produced on `ctxC3`. -/
def assistC3a : Assist := ⟨"Qualify PubStruct", "Qualify as `PubMod1`", ⟨0, 9⟩, "PubMod1"⟩

/-- Second assist produced on `ctxC3`. -/
def assistC3b : Assist := ⟨"Qualify PubStruct", "Qualify as `PubMod2`", ⟨0, 9⟩, "PubMod2"⟩

/-- Method-call node for the TraitMethod borrow witness. -/
def mcallC4 : MethodCallExpr :=
  { receiver := some ⟨"one"⟩, name_ref := some ⟨"test_method"⟩, range := ⟨0, 17⟩ }

/-- Its classified assets. -/
def assetsC4 : ImportAssets :=
  ⟨ImportCandidate.traitMethod "test_method", AstNode.methodCall mcallC4⟩

/-- Context for the TraitMethod borrow witness. -/
def ctxC4 : AssistContext :=
  { path_under_caret := none
    method_under_caret := some mcallC4
    for_regular_path := fun _ => none
    for_method_call := fun _ => some assetsC4
    search_for_relative_paths := fun _ => [⟨["test_mod", "TestTrait"]⟩] }

/-- The one assist produced on `ctxC4`. -/
def assistC4 : Assist :=
  ⟨"Qualify test_method", "Qualify `test_mod::TestTrait`", ⟨0, 17⟩,
   "test_mod::TestTrait::test_method(&one)"⟩

/-- The qualifier path `TestStruct` of the TraitAssocItem witness. -/
def qualC5 : Path := Path.root (some ⟨"TestStruct", "TestStruct", ⟨0, 10⟩⟩) ⟨0, 10⟩ "TestStruct"

/-- The item segment `TEST_CONST` of the TraitAssocItem witness. -/
def segC5 : PathSegment := ⟨"TEST_CONST", "TEST_CONST", ⟨12, 22⟩⟩

/-- The whole `TestStruct::TEST_CONST` path node. -/
def pathC5 : Path := Path.qualified qualC5 (some segC5) ⟨0, 22⟩ "TestStruct::TEST_CONST"

/-- Its classified assets. -/
def assetsC5 : ImportAssets :=
  ⟨ImportCandidate.traitAssocItem "TEST_CONST", AstNode.path pathC5⟩

/-- Context for the TraitAssocItem witness: candidate `test_mod::TestTrait`. -/
def ctxC5 : AssistContext :=
  { path_under_caret := some pathC5
    method_under_caret := none
    for_regular_path := fun _ => some assetsC5
    for_method_call := fun _ => none
    search_for_relative_paths := fun _ => [⟨["test_mod", "TestTrait"]⟩] }

/-- The one assist produced on `ctxC5`. -/
def assistC5 : Assist :=
  ⟨"Qualify TEST_CONST", "Qualify with cast as `test_mod::TestTrait`", ⟨0, 22⟩,
   "<TestStruct as test_mod::TestTrait>::TEST_CONST"⟩

/-- Assets of an unqualified reference whose oracle answer will be
empty. -/
def assetsC6e : ImportAssets :=
  ⟨ImportCandidate.unqualifiedName "PubStruct",
   AstNode.path (Path.root (some ⟨"PubStruct", "PubStruct", ⟨0, 9⟩⟩) ⟨0, 9⟩ "PubStruct")⟩

/-- Context whose oracle yields zero candidate paths. -/
def ctxC6empty : AssistContext :=
  { path_under_caret := some (Path.root (some ⟨"PubStruct", "PubStruct", ⟨0, 9⟩⟩) ⟨0, 9⟩ "PubStruct")
    method_under_caret := none
    for_regular_path := fun _ => some assetsC6e
    for_method_call := fun _ => none
    search_for_relative_paths := fun _ => [] }

/-- A method-call node missing its receiver (incomplete edit). -/
def mcallC6 : MethodCallExpr := { receiver := none, name_ref := some ⟨"m"⟩, range := ⟨0, 5⟩ }

/-- Its classified assets. -/
def assetsC6m : ImportAssets :=
  ⟨ImportCandidate.traitMethod "m", AstNode.methodCall mcallC6⟩

/-- Context locating a malformed TraitMethod node, with a non-empty
oracle answer. -/
def ctxC6malformed : AssistContext :=
  { path_under_caret := none
    method_under_caret := some mcallC6
    for_regular_path := fun _ => none
    for_method_call := fun _ => some assetsC6m
    search_for_relative_paths := fun _ => [⟨["a"]⟩] }

/-- Assets for the ordering witness. -/
def assetsC7 : ImportAssets :=
  ⟨ImportCandidate.unqualifiedName "S",
   AstNode.path (Path.root (some ⟨"S", "S", ⟨0, 1⟩⟩) ⟨0, 1⟩ "S")⟩

/-- Context for the ordering witness: the raw oracle answer is out of
order and has a duplicate. -/
def ctxC7 : AssistContext :=
  { path_under_caret := some (Path.root (some ⟨"S", "S", ⟨0, 1⟩⟩) ⟨0, 1⟩ "S")
    method_under_caret := none
    for_regular_path := fun _ => some assetsC7
    for_method_call := fun _ => none
    search_for_relative_paths := fun _ => [⟨["bbb"]⟩, ⟨["aaa"]⟩, ⟨["bbb"]⟩] }

end QualifyPath

namespace BinLogger

/-- A record with a module path. -/
def recC : Record := ⟨"ERROR", some "ra", "boom"⟩

/-- A record without a module path. -/
def recNoPath : Record := ⟨"INFO", none, "hello"⟩

/-- A healthy sink. -/
def sinkOk : Sink := ⟨[], false, false, 0⟩

/-- A sink whose flushes fail. -/
def sinkBadFlush : Sink := ⟨[], false, true, 0⟩

/-- Healthy world. -/
def stateOk : LogState := ⟨sinkOk, sinkOk⟩

/-- World whose file sink fails to flush. -/
def stateBadFlush : LogState := ⟨sinkBadFlush, sinkOk⟩

/-- File logger in unbuffered mode, passing every record. -/
def fileUnbufLogger : Logger := ⟨fun _ => true, true, true⟩

/-- File logger in buffered mode, passing every record. -/
def fileBufLogger : Logger := ⟨fun _ => true, true, false⟩

/-- Stream (stderr) logger, passing every record. -/
def stderrLogger : Logger := ⟨fun _ => true, false, false⟩

end BinLogger

namespace QualifyPath

/-- Transitivity of the lexicographic comparison. -/
theorem natListLt_trans : ∀ xs ys zs : List Nat,
    natListLt xs ys = true → natListLt ys zs = true → natListLt xs zs = true := by
  intro xs
  induction xs with
  | nil =>
    intro ys zs h1 h2
    cases ys with
    | nil => simp [natListLt] at h1
    | cons y ys2 =>
      cases zs with
      | nil => simp [natListLt] at h2
      | cons z zs2 => simp [natListLt]
  | cons x xs2 ih =>
    intro ys zs h1 h2
    cases ys with
    | nil => simp [natListLt] at h1
    | cons y ys2 =>
      cases zs with
      | nil => simp [natListLt] at h2
      | cons z zs2 =>
        simp only [natListLt] at h1 h2 ⊢
        by_cases hxy : x < y
        · rw [if_pos hxy] at h1
          by_cases hyz : y < z
          · have hxz : x < z := Nat.lt_trans hxy hyz
            rw [if_pos hxz]
          · by_cases hzy : z < y
            · rw [if_neg hyz, if_pos hzy] at h2
              exact absurd h2 (by simp)
            · have hxz : x < z := by omega
              rw [if_pos hxz]
        · by_cases hyx : y < x
          · rw [if_neg hxy, if_pos hyx] at h1
            exact absurd h1 (by simp)
          · rw [if_neg hxy, if_neg hyx] at h1
            by_cases hyz : y < z
            · have hxz : x < z := by omega
              rw [if_pos hxz]
            · by_cases hzy : z < y
              · rw [if_neg hyz, if_pos hzy] at h2
                exact absurd h2 (by simp)
              · rw [if_neg hyz, if_neg hzy] at h2
                have hxz : ¬ x < z := by omega
                have hzx : ¬ z < x := by omega
                rw [if_neg hxz, if_neg hzx]
                exact ih ys2 zs2 h1 h2

/-- Totality of the lexicographic comparison: two distinct keys compare
strictly one way or the other. -/
theorem natListLt_total : ∀ xs ys : List Nat,
    natListLt xs ys = false → xs ≠ ys → natListLt ys xs = true := by
  intro xs
  induction xs with
  | nil =>
    intro ys h1 h2
    cases ys with
    | nil => exact absurd rfl h2
    | cons y ys2 => simp [natListLt] at h1
  | cons x xs2 ih =>
    intro ys h1 h2
    cases ys with
    | nil => simp [natListLt]
    | cons y ys2 =>
      simp only [natListLt] at h1 ⊢
      by_cases hxy : x < y
      · rw [if_pos hxy] at h1
        exact absurd h1 (by simp)
      · by_cases hyx : y < x
        · rw [if_pos hyx]
        · have hxy2 : x = y := by omega
          rw [if_neg hxy, if_neg hyx] at h1
          rw [if_neg hyx, if_neg hxy]
          refine ih ys2 h1 ?_
          intro he
          exact h2 (by rw [hxy2, he])

/-- Membership after an ordered insertion. -/
theorem mem_insertModPath {x p : ModPath} : ∀ {l : List ModPath},
    x ∈ insertModPath p l → x = p ∨ x ∈ l := by
  intro l
  induction l with
  | nil =>
    intro h
    simp [insertModPath] at h
    exact Or.inl h
  | cons q qs ih =>
    intro h
    simp only [insertModPath] at h
    by_cases h1 : natListLt (renderKey p) (renderKey q) = true
    · rw [if_pos h1] at h
      rcases List.mem_cons.mp h with h2 | h2
      · exact Or.inl h2
      · exact Or.inr h2
    · rw [if_neg h1] at h
      by_cases h2 : renderKey p = renderKey q
      · rw [if_pos h2] at h
        exact Or.inr h
      · rw [if_neg h2] at h
        rcases List.mem_cons.mp h with h3 | h3
        · exact Or.inr (by rw [h3]; exact List.mem_cons_self q qs)
        · rcases ih h3 with h4 | h4
          · exact Or.inl h4
          · exact Or.inr (List.mem_cons_of_mem q h4)

/-- Ordered insertion preserves strict sortedness by rendered text. -/
theorem pairwise_insertModPath {p : ModPath} : ∀ {l : List ModPath},
    l.Pairwise renderLt → (insertModPath p l).Pairwise renderLt := by
  intro l
  induction l with
  | nil =>
    intro _
    simp [insertModPath]
  | cons q qs ih =>
    intro hp
    rcases List.pairwise_cons.mp hp with ⟨hq, hqs⟩
    simp only [insertModPath]
    by_cases h1 : natListLt (renderKey p) (renderKey q) = true
    · rw [if_pos h1]
      refine List.pairwise_cons.mpr ⟨?_, hp⟩
      intro x hx
      rcases List.mem_cons.mp hx with h2 | h2
      · rw [h2]; exact h1
      · exact natListLt_trans _ _ _ h1 (hq x h2)
    · rw [if_neg h1]
      by_cases h2 : renderKey p = renderKey q
      · rw [if_pos h2]; exact hp
      · rw [if_neg h2]
        refine List.pairwise_cons.mpr ⟨?_, ih hqs⟩
        intro x hx
        rcases mem_insertModPath hx with h3 | h3
        · rw [h3]
          exact natListLt_total _ _ (Bool.eq_false_iff.mpr h1) h2
        · exact hq x h3

/-- Folding ordered insertions over any start keeps sortedness. -/
theorem pairwise_foldl_insert : ∀ (l acc : List ModPath),
    acc.Pairwise renderLt →
    (l.foldl (fun a p => insertModPath p a) acc).Pairwise renderLt := by
  intro l
  induction l with
  | nil => intro acc h; exact h
  | cons p ps ih =>
    intro acc h
    exact ih _ (pairwise_insertModPath h)

/-- The modelled `BTreeSet` iteration order is strictly sorted by
rendered text. -/
theorem pairwise_btreeSetOf (l : List ModPath) : (btreeSetOf l).Pairwise renderLt :=
  pairwise_foldl_insert l [] List.Pairwise.nil

/-- Every assist emitted by the dispatch block targets the located
original range of the located node. -/
theorem target_of_mem_dispatch (node : AstNode) (cand : ImportCandidate)
    (proposed : List ModPath) (a : Assist)
    (h : a ∈ (qualify_path_dispatch node cand proposed).2) :
    a.target = node.originalRange := by
  cases cand with
  | qualifierStart name =>
    simp only [qualify_path_dispatch] at h
    cases hc : node.castPath with
    | none => rw [hc] at h; simp at h
    | some path =>
      rw [hc] at h
      dsimp only at h
      cases hs : path.segment with
      | none => rw [hs] at h; simp at h
      | some seg =>
        rw [hs] at h
        simp only [qualify_path_qualifier_start, List.mem_map] at h
        obtain ⟨imp, _, rfl⟩ := h
        rfl
  | unqualifiedName name =>
    simp only [qualify_path_dispatch, qualify_path_unqualified_name, List.mem_map] at h
    obtain ⟨imp, _, rfl⟩ := h
    rfl
  | traitAssocItem name =>
    simp only [qualify_path_dispatch] at h
    cases hc : node.castPath with
    | none => rw [hc] at h; simp at h
    | some path =>
      rw [hc] at h
      dsimp only at h
      cases hq : path.qualifier with
      | none => rw [hq] at h; simp at h
      | some qualifier =>
        rw [hq] at h
        cases hs : path.segment with
        | none => rw [hs] at h; simp at h
        | some seg =>
          rw [hs] at h
          simp only [qualify_path_trait_assoc_item, List.mem_map] at h
          obtain ⟨imp, _, rfl⟩ := h
          rfl
  | traitMethod name =>
    simp only [qualify_path_dispatch] at h
    cases hc : node.castMethodCall with
    | none => rw [hc] at h; simp at h
    | some mcall_expr =>
      rw [hc] at h
      dsimp only at h
      cases hr : mcall_expr.receiver with
      | none => rw [hr] at h; simp at h
      | some receiver =>
        rw [hr] at h
        cases hn : mcall_expr.name_ref with
        | none => rw [hn] at h; simp at h
        | some name_ref =>
          rw [hn] at h
          simp only [qualify_path_trait_method, List.mem_map] at h
          obtain ⟨imp, _, rfl⟩ := h
          rfl

/-- Claim C3: every Edit produced by one invocation of `qualify_path`
targets the identical source range — the single range computed once from
the located reference — for every shape and every candidate path. -/
theorem assist_group_shares_target_range (ctx : AssistContext) (a1 a2 : Assist)
    (h1 : a1 ∈ (qualify_path ctx).2) (h2 : a2 ∈ (qualify_path ctx).2) :
    a1.target = a2.target := by
  simp only [qualify_path] at h1 h2
  cases hloc : locate ctx with
  | none =>
    rw [hloc] at h1
    simp at h1
  | some assets =>
    rw [hloc] at h1 h2
    dsimp only at h1 h2
    by_cases he : (btreeSetOf (ctx.search_for_relative_paths assets)).isEmpty = true
    · rw [if_pos he] at h1
      simp at h1
    · rw [if_neg he] at h1 h2
      rw [target_of_mem_dispatch _ _ _ _ h1, target_of_mem_dispatch _ _ _ _ h2]

/-- Witness for C3: the two assists of a two-candidate invocation share
their target range. -/
theorem assist_group_shares_target_range_witness :
    assistC3a.target = assistC3b.target :=
  assist_group_shares_target_range ctxC3 assistC3a assistC3b (by decide) (by decide)

/-- Claim C1 (the code evaluated at the failing input): on the repository
test `trait_method_multi_params` — `test_struct.test_method(42)` with
candidate `test_mod::TestTrait` — the one synthesized Edit targets the
span of the whole call, `[0, 27)`, not just the callee, and applying it
yields `test_mod::TestTrait::test_method(&test_struct)`: the original
argument `42` is discarded, while the claim (and the expected output of
the test) keeps it. -/
theorem trait_method_edit_drops_call_arguments :
    (qualify_path ctxC1).2.map (fun a => (a.target, applyEdit srcC1 a.target a.replacement)) =
      [(⟨0, 27⟩, "test_mod::TestTrait::test_method(&test_struct)")] ∧
    ("test_mod::TestTrait::test_method(&test_struct)" : String) ≠
      "test_mod::TestTrait::test_method(&test_struct, 42)" := by
  constructor
  · decide
  · decide

end QualifyPath

namespace QualifyPath

/-- Claim C2: for every QualifierStart reference and every candidate
path, the synthesized Edit targets the span of the leading segment only,
and its replacement is the rendered candidate followed by `::` and the
original segment text re-emitted verbatim (so any generic arguments in
it are preserved). -/
theorem qualifier_start_edit_targets_leading_segment
    (ctx : AssistContext) (seg : PathSegment)
    (hloc : locate ctx = some (importAssetsForQualifierStart seg)) :
    ∀ a ∈ (qualify_path ctx).2,
      a.target = seg.range ∧
      ∃ imp ∈ btreeSetOf (ctx.search_for_relative_paths (importAssetsForQualifierStart seg)),
        a.replacement = imp.render ++ "::" ++ seg.text := by
  intro a ha
  simp only [qualify_path] at ha
  rw [hloc] at ha
  dsimp only at ha
  by_cases he : (btreeSetOf
      (ctx.search_for_relative_paths (importAssetsForQualifierStart seg))).isEmpty = true
  · rw [if_pos he] at ha
    simp at ha
  · rw [if_neg he] at ha
    simp only [importAssetsForQualifierStart, qualify_path_dispatch, AstNode.castPath,
      Path.segment, AstNode.originalRange, Path.range,
      qualify_path_qualifier_start, List.mem_map] at ha
    obtain ⟨imp, himp, rfl⟩ := ha
    exact ⟨rfl, imp, himp, rfl⟩

/-- Witness for C2 at a concrete reference with candidate `test_mod`. -/
theorem qualifier_start_edit_targets_leading_segment_witness :
    assistC2.target = segC2.range ∧
    ∃ imp ∈ btreeSetOf (ctxC2.search_for_relative_paths (importAssetsForQualifierStart segC2)),
      assistC2.replacement = imp.render ++ "::" ++ segC2.text :=
  qualifier_start_edit_targets_leading_segment ctxC2 segC2 rfl assistC2 (by decide)

/-- Claim C4: for every TraitMethod reference and every candidate path,
the synthesized replacement text always inserts a shared borrow `&`
directly before the receiver expression text — the embedding, like the
source, never consults the declared receiver kind. -/
theorem trait_method_always_borrows_receiver (ctx : AssistContext) (nm : String)
    (m : MethodCallExpr) (rcv : Expr) (nr : NameRef)
    (hloc : locate ctx = some ⟨ImportCandidate.traitMethod nm, AstNode.methodCall m⟩)
    (hr : m.receiver = some rcv) (hn : m.name_ref = some nr) :
    ∀ a ∈ (qualify_path ctx).2,
      ∃ imp ∈ btreeSetOf
          (ctx.search_for_relative_paths ⟨ImportCandidate.traitMethod nm, AstNode.methodCall m⟩),
        a.replacement = imp.render ++ "::" ++ nr.text ++ "(&" ++ rcv.text ++ ")" := by
  intro a ha
  simp only [qualify_path] at ha
  rw [hloc] at ha
  dsimp only at ha
  by_cases he : (btreeSetOf (ctx.search_for_relative_paths
      ⟨ImportCandidate.traitMethod nm, AstNode.methodCall m⟩)).isEmpty = true
  · rw [if_pos he] at ha
    simp at ha
  · rw [if_neg he] at ha
    simp only [qualify_path_dispatch, AstNode.castMethodCall] at ha
    rw [hr, hn] at ha
    simp only [qualify_path_trait_method, List.mem_map] at ha
    obtain ⟨imp, himp, rfl⟩ := ha
    exact ⟨imp, himp, rfl⟩

/-- Witness for C4 at a concrete call `one.test_method()`. -/
theorem trait_method_always_borrows_receiver_witness :
    ∃ imp ∈ btreeSetOf (ctxC4.search_for_relative_paths assetsC4),
      assistC4.replacement =
        imp.render ++ "::" ++ (⟨"test_method"⟩ : NameRef).text ++ "(&" ++ (⟨"one"⟩ : Expr).text ++ ")" :=
  trait_method_always_borrows_receiver ctxC4 "test_method" mcallC4 ⟨"one"⟩ ⟨"test_method"⟩
    rfl rfl rfl assistC4 (by decide)

/-- Claim C5: for every TraitAssocItem reference `Type::item` and every
candidate path, the Edit targets the span of the whole located
`Type::item` path node, and its replacement is exactly
`<{concrete type verbatim} as {rendered candidate}>::{item segment verbatim}`. -/
theorem trait_assoc_item_edit_shape (ctx : AssistContext) (nm : String)
    (p q2 : Path) (seg : PathSegment)
    (hloc : locate ctx = some ⟨ImportCandidate.traitAssocItem nm, AstNode.path p⟩)
    (hq : p.qualifier = some q2) (hs : p.segment = some seg) :
    ∀ a ∈ (qualify_path ctx).2,
      a.target = p.range ∧
      ∃ imp ∈ btreeSetOf
          (ctx.search_for_relative_paths ⟨ImportCandidate.traitAssocItem nm, AstNode.path p⟩),
        a.replacement = "<" ++ q2.text ++ " as " ++ imp.render ++ ">::" ++ seg.text := by
  intro a ha
  simp only [qualify_path] at ha
  rw [hloc] at ha
  dsimp only at ha
  by_cases he : (btreeSetOf (ctx.search_for_relative_paths
      ⟨ImportCandidate.traitAssocItem nm, AstNode.path p⟩)).isEmpty = true
  · rw [if_pos he] at ha
    simp at ha
  · rw [if_neg he] at ha
    simp only [qualify_path_dispatch, AstNode.castPath] at ha
    rw [hq, hs] at ha
    simp only [AstNode.originalRange, qualify_path_trait_assoc_item, List.mem_map] at ha
    obtain ⟨imp, himp, rfl⟩ := ha
    exact ⟨rfl, imp, himp, rfl⟩

/-- Witness for C5 at `TestStruct::TEST_CONST` with candidate
`test_mod::TestTrait`. -/
theorem trait_assoc_item_edit_shape_witness :
    assistC5.target = pathC5.range ∧
    ∃ imp ∈ btreeSetOf (ctxC5.search_for_relative_paths assetsC5),
      assistC5.replacement = "<" ++ qualC5.text ++ " as " ++ imp.render ++ ">::" ++ segC5.text :=
  trait_assoc_item_edit_shape ctxC5 "TEST_CONST" pathC5 qualC5 segC5 rfl rfl rfl
    assistC5 (by decide)

end QualifyPath

namespace QualifyPath

/-- Claim C6: `qualify_path` never fails hard — with no locatable
reference, with an oracle that yields zero candidate paths, or with a
located node lacking an expected child, it returns `none` and adds no
assists. -/
theorem qualify_path_silent_decline (ctx : AssistContext) :
    (locate ctx = none → qualify_path ctx = (none, [])) ∧
    (∀ assets, locate ctx = some assets →
      ctx.search_for_relative_paths assets = [] → qualify_path ctx = (none, [])) ∧
    (∀ assets, locate ctx = some assets → malformed assets = true →
      qualify_path ctx = (none, [])) := by
  refine ⟨?_, ?_, ?_⟩
  · intro h
    simp [qualify_path, h]
  · intro assets h hempty
    simp [qualify_path, h, hempty, btreeSetOf]
  · intro assets h hm
    simp only [qualify_path, h]
    by_cases he : (btreeSetOf (ctx.search_for_relative_paths assets)).isEmpty = true
    · rw [if_pos he]
    · rw [if_neg he]
      unfold malformed at hm
      cases hcand : assets.import_candidate with
      | qualifierStart nm =>
        rw [hcand] at hm
        cases hcast : assets.node_under_caret.castPath with
        | none => simp [qualify_path_dispatch, hcand, hcast]
        | some path =>
          rw [hcast] at hm
          dsimp only at hm
          have hseg : path.segment = none := Option.isNone_iff_eq_none.mp hm
          simp [qualify_path_dispatch, hcand, hcast, hseg]
      | unqualifiedName nm =>
        rw [hcand] at hm
        simp at hm
      | traitAssocItem nm =>
        rw [hcand] at hm
        cases hcast : assets.node_under_caret.castPath with
        | none => simp [qualify_path_dispatch, hcand, hcast]
        | some path =>
          rw [hcast] at hm
          dsimp only at hm
          rcases Bool.or_eq_true_iff.mp hm with h1 | h1
          · have hq : path.qualifier = none := Option.isNone_iff_eq_none.mp h1
            simp [qualify_path_dispatch, hcand, hcast, hq]
          · have hs : path.segment = none := Option.isNone_iff_eq_none.mp h1
            cases hq : path.qualifier with
            | none => simp [qualify_path_dispatch, hcand, hcast, hq]
            | some q2 => simp [qualify_path_dispatch, hcand, hcast, hq, hs]
      | traitMethod nm =>
        rw [hcand] at hm
        cases hcast : assets.node_under_caret.castMethodCall with
        | none => simp [qualify_path_dispatch, hcand, hcast]
        | some mcall_expr =>
          rw [hcast] at hm
          dsimp only at hm
          rcases Bool.or_eq_true_iff.mp hm with h1 | h1
          · have hr : mcall_expr.receiver = none := Option.isNone_iff_eq_none.mp h1
            simp [qualify_path_dispatch, hcand, hcast, hr]
          · have hn : mcall_expr.name_ref = none := Option.isNone_iff_eq_none.mp h1
            cases hr : mcall_expr.receiver with
            | none => simp [qualify_path_dispatch, hcand, hcast, hr]
            | some receiver => simp [qualify_path_dispatch, hcand, hcast, hr, hn]

/-- Witness for C6: an empty oracle answer and a receiver-less method
call both yield the empty NotApplicable result. -/
theorem qualify_path_silent_decline_witness :
    qualify_path ctxC6empty = (none, []) ∧ qualify_path ctxC6malformed = (none, []) :=
  ⟨(qualify_path_silent_decline ctxC6empty).2.1 assetsC6e rfl rfl,
   (qualify_path_silent_decline ctxC6malformed).2.2 assetsC6m rfl rfl⟩

/-- Claim C7: one invocation is a pure function of the tree, offset and
oracle answers (the embedding is deterministic by construction), the
candidate set iterates strictly sorted by rendered text, and the
produced Edits are exactly that sorted candidate list mapped through one
shape-specific constructor — hence identical order on identical
inputs. -/
theorem qualify_path_deterministic_order (ctx : AssistContext) (assets : ImportAssets)
    (hloc : locate ctx = some assets) :
    (btreeSetOf (ctx.search_for_relative_paths assets)).Pairwise renderLt ∧
    ((qualify_path ctx).2 = [] ∨
      ∃ f : ModPath → Assist,
        (qualify_path ctx).2 = (btreeSetOf (ctx.search_for_relative_paths assets)).map f) := by
  obtain ⟨cand, node⟩ := assets
  refine ⟨pairwise_btreeSetOf _, ?_⟩
  simp only [qualify_path, hloc]
  by_cases he : (btreeSetOf
      (ctx.search_for_relative_paths ⟨cand, node⟩)).isEmpty = true
  · rw [if_pos he]
    exact Or.inl rfl
  · rw [if_neg he]
    cases cand with
    | qualifierStart nm =>
      cases hcast : node.castPath with
      | none => exact Or.inl (by simp [qualify_path_dispatch, hcast])
      | some path =>
        cases hseg : path.segment with
        | none => exact Or.inl (by simp [qualify_path_dispatch, hcast, hseg])
        | some seg =>
          refine Or.inr ⟨fun imp =>
            { group_label := "Qualify " ++ nm
              label := "Qualify with `" ++ imp.render ++ "`"
              target := node.originalRange
              replacement := imp.render ++ "::" ++ seg.text }, ?_⟩
          simp only [qualify_path_dispatch]
          rw [hcast]
          dsimp only
          rw [hseg]
          dsimp only [qualify_path_qualifier_start]
    | unqualifiedName nm =>
      refine Or.inr ⟨fun imp =>
        { group_label := "Qualify " ++ nm
          label := "Qualify as `" ++ imp.render ++ "`"
          target := node.originalRange
          replacement := imp.render }, ?_⟩
      simp only [qualify_path_dispatch]
      dsimp only [qualify_path_unqualified_name]
    | traitAssocItem nm =>
      cases hcast : node.castPath with
      | none => exact Or.inl (by simp [qualify_path_dispatch, hcast])
      | some path =>
        cases hq : path.qualifier with
        | none => exact Or.inl (by simp [qualify_path_dispatch, hcast, hq])
        | some q2 =>
          cases hseg : path.segment with
          | none => exact Or.inl (by simp [qualify_path_dispatch, hcast, hq, hseg])
          | some seg =>
            refine Or.inr ⟨fun imp =>
              { group_label := "Qualify " ++ nm
                label := "Qualify with cast as `" ++ imp.render ++ "`"
                target := node.originalRange
                replacement := "<" ++ q2.text ++ " as " ++ imp.render ++ ">::" ++ seg.text }, ?_⟩
            simp only [qualify_path_dispatch]
            rw [hcast]
            dsimp only
            rw [hq, hseg]
            dsimp only [qualify_path_trait_assoc_item]
    | traitMethod nm =>
      cases hcast : node.castMethodCall with
      | none => exact Or.inl (by simp [qualify_path_dispatch, hcast])
      | some mcall_expr =>
        cases hr : mcall_expr.receiver with
        | none => exact Or.inl (by simp [qualify_path_dispatch, hcast, hr])
        | some receiver =>
          cases hn : mcall_expr.name_ref with
          | none => exact Or.inl (by simp [qualify_path_dispatch, hcast, hr, hn])
          | some name_ref =>
            refine Or.inr ⟨fun imp =>
              { group_label := "Qualify " ++ nm
                label := "Qualify `" ++ imp.render ++ "`"
                target := node.originalRange
                replacement := imp.render ++ "::" ++ name_ref.text ++ "(&" ++ receiver.text ++ ")" }, ?_⟩
            simp only [qualify_path_dispatch]
            rw [hcast]
            dsimp only
            rw [hr, hn]
            dsimp only [qualify_path_trait_method]

/-- Witness for C7 on an out-of-order, duplicated oracle answer. -/
theorem qualify_path_deterministic_order_witness :
    (btreeSetOf (ctxC7.search_for_relative_paths assetsC7)).Pairwise renderLt ∧
    ((qualify_path ctxC7).2 = [] ∨
      ∃ f : ModPath → Assist,
        (qualify_path ctxC7).2 = (btreeSetOf (ctxC7.search_for_relative_paths assetsC7)).map f) :=
  qualify_path_deterministic_order ctxC7 assetsC7 rfl

end QualifyPath

namespace BinLogger

/-- Counterexample to claim C8 as stated: in the unbuffered file
configuration, a record that passes the filter hits the `unwrap()` on
the explicit flush (source line 58), so a flush failure does propagate
out of the logging call — the call aborts instead of ignoring the
error. -/
theorem unbuffered_flush_error_aborts_log :
    Logger.log fileUnbufLogger recC stateBadFlush = none := by
  rfl

/-- Claim C8 as amended: write failures to the file are always dropped
and `Log::flush` ignores flush errors; a record write on a healthy
stderr and any buffered-file write return normally whatever the failure
flags of the sink; the one exception is the unbuffered file configuration,
where the call survives exactly when the explicit per-record flush does
not fail. -/
theorem logger_error_handling_amended (l : Logger) (r : Record) (s : LogState) :
    (l.hasFile = true → l.no_buffering = false → (l.log r s).isSome = true) ∧
    (l.hasFile = true → s.file.failFlush = false → (l.log r s).isSome = true) ∧
    (l.hasFile = false → s.stderr.failWrites = false → (l.log r s).isSome = true) ∧
    (l.hasFile = true → s.file.failFlush = true → l.flush s = s) := by
  refine ⟨?_, ?_, ?_, ?_⟩
  · intro h1 h2
    cases hf : l.filter r <;>
      cases hw : s.file.failWrites <;>
        simp [Logger.log, h1, h2, hf, hw, Sink.writeLineDrop]
  · intro h1 h2
    cases hf : l.filter r <;>
      cases hb : l.no_buffering <;>
        cases hw : s.file.failWrites <;>
          simp [Logger.log, h1, h2, hf, hb, hw, Sink.writeLineDrop, Sink.flushTry]
  · intro h1 h2
    cases hf : l.filter r <;>
      simp [Logger.log, h1, h2, hf]
  · intro h1 h2
    simp [Logger.flush, h1, h2, Sink.flushDrop]

/-- Witness for the amended C8: a buffered file logger and a stderr
logger both return normally even over a flush-broken file sink, and
`Log::flush` leaves the flush-broken state untouched. -/
theorem logger_error_handling_amended_witness :
    (Logger.log fileBufLogger recC stateBadFlush).isSome = true ∧
    (Logger.log stderrLogger recC stateOk).isSome = true ∧
    Logger.flush fileBufLogger stateBadFlush = stateBadFlush :=
  ⟨(logger_error_handling_amended fileBufLogger recC stateBadFlush).1 rfl rfl,
   (logger_error_handling_amended stderrLogger recC stateOk).2.2.1 rfl rfl,
   (logger_error_handling_amended fileBufLogger recC stateBadFlush).2.2.2 rfl rfl⟩

/-- Claim C9: every record that passes the filter is written as exactly
one line `[{level} {module-path}] {message}` (module path empty when
absent) to the destination of the logger — the file when one is present,
stderr otherwise — provided that destination accepts the write (and, in
the unbuffered file mode, the flush). -/
theorem log_writes_single_formatted_line (l : Logger) (r : Record) (s : LogState)
    (hf : l.filter r = true) :
    (l.hasFile = true → s.file.failWrites = false →
      (l.no_buffering = true → s.file.failFlush = false) →
      ∃ s2, l.log r s = some s2 ∧
        s2.file.lines = s.file.lines ++ [formatRecord r] ∧ s2.stderr = s.stderr) ∧
    (l.hasFile = false → s.stderr.failWrites = false →
      ∃ s2, l.log r s = some s2 ∧
        s2.stderr.lines = s.stderr.lines ++ [formatRecord r] ∧ s2.file = s.file) := by
  constructor
  · intro h1 h2 h3
    cases hb : l.no_buffering with
    | false =>
      refine ⟨{ s with file := { s.file with lines := s.file.lines ++ [formatRecord r] } },
        ?_, rfl, rfl⟩
      simp [Logger.log, hf, h1, h2, hb, Sink.writeLineDrop]
    | true =>
      have hff : s.file.failFlush = false := h3 hb
      refine ⟨{ s with file := { s.file with
          lines := s.file.lines ++ [formatRecord r]
          flushes := s.file.flushes + 1 } }, ?_, rfl, rfl⟩
      simp [Logger.log, hf, h1, h2, hb, hff, Sink.writeLineDrop, Sink.flushTry]
  · intro h1 h2
    refine ⟨{ s with stderr := { s.stderr with lines := s.stderr.lines ++ [formatRecord r] } },
      ?_, rfl, rfl⟩
    simp [Logger.log, hf, h1, h2]

/-- Witness for C9: a record without a module path on the stderr logger,
and one with a module path on the buffered file logger. -/
theorem log_writes_single_formatted_line_witness :
    (∃ s2, Logger.log stderrLogger recNoPath stateOk = some s2 ∧
      s2.stderr.lines = stateOk.stderr.lines ++ [formatRecord recNoPath] ∧
      s2.file = stateOk.file) ∧
    (∃ s2, Logger.log fileBufLogger recC stateOk = some s2 ∧
      s2.file.lines = stateOk.file.lines ++ [formatRecord recC] ∧
      s2.stderr = stateOk.stderr) :=
  ⟨(log_writes_single_formatted_line stderrLogger recNoPath stateOk rfl).2 rfl rfl,
   (log_writes_single_formatted_line fileBufLogger recC stateOk rfl).1 rfl rfl
     (fun h => Bool.noConfusion h)⟩

/-- Claim C10: without a file destination, the `no_buffering` flag has
no observable effect, `Log::flush` does nothing, no explicit flush is
ever performed on the stderr path (and the file state is untouched), and
every enabled record goes to stderr. -/
theorem stderr_logger_ignores_buffering_and_flush (l : Logger) (r : Record) (s : LogState)
    (h : l.hasFile = false) :
    Logger.log { l with no_buffering := true } r s
      = Logger.log { l with no_buffering := false } r s ∧
    Logger.flush l s = s ∧
    (∀ s2, l.log r s = some s2 → s2.file = s.file ∧ s2.stderr.flushes = s.stderr.flushes) ∧
    (l.filter r = true → s.stderr.failWrites = false →
      ∃ s2, l.log r s = some s2 ∧
        s2.stderr.lines = s.stderr.lines ++ [formatRecord r]) := by
  refine ⟨?_, ?_, ?_, ?_⟩
  · cases hf : l.filter r <;> simp [Logger.log, h, hf]
  · simp [Logger.flush, h]
  · intro s2 hs2
    cases hf : l.filter r with
    | false =>
      simp [Logger.log, h, hf] at hs2
      rw [← hs2]
      exact ⟨rfl, rfl⟩
    | true =>
      cases hw : s.stderr.failWrites with
      | true => simp [Logger.log, h, hf, hw] at hs2
      | false =>
        simp [Logger.log, h, hf, hw] at hs2
        rw [← hs2]
        exact ⟨rfl, rfl⟩
  · intro hf hw
    refine ⟨{ s with stderr := { s.stderr with lines := s.stderr.lines ++ [formatRecord r] } },
      ?_, rfl⟩
    simp [Logger.log, h, hf, hw]

/-- Witness for C10 on the concrete stderr logger. -/
theorem stderr_logger_ignores_buffering_and_flush_witness :
    Logger.flush stderrLogger stateOk = stateOk ∧
    ∃ s2, Logger.log stderrLogger recC stateOk = some s2 ∧
      s2.stderr.lines = stateOk.stderr.lines ++ [formatRecord recC] :=
  ⟨(stderr_logger_ignores_buffering_and_flush stderrLogger recC stateOk rfl).2.1,
   (stderr_logger_ignores_buffering_and_flush stderrLogger recC stateOk rfl).2.2.2 rfl rfl⟩

end BinLogger
